import Mathlib

/-!
# cmd-nsc: request / teardown orchestration of `main`

A shallow embedding of `main` (src/main.go).  The program is sequential: it
configures a signal context, reads its configuration, dials the manager, issues
one `Request` per configured network service, waits for the shutdown signal and
then returns, which runs the deferred calls in last-in first-out order.

Everything the program does that is visible from outside is recorded as an
`Event` in a chronological trace.  Calls into external collaborators
(`envconfig`, the X.509 source, `grpc.DialContext`, `nsmClient.Request`,
`nsmClient.Close`, the arrival of the signal) are answered by an `Env`.
-/

namespace Nsc

/-! ## Data model -/

/-- The type `time.Duration` (a signed count of nanoseconds). -/
abbrev Duration := Int

/-- The message `networkservice.Mechanism`: class, type tag and parameters. -/
structure Mechanism where
  Cls : String
  Type_ : String
  Parameters : List (String × String)
  deriving DecidableEq, Repr

/-- The message `networkservice.Connection`.  A request is built with only
`Id`, `NetworkService` and `Labels` set; the remaining fields are filled in by
the manager in the response. -/
structure Connection where
  Id : String
  NetworkService : String
  Labels : List (String × String)
  Mechanism : Option Mechanism
  Context : String
  Path : List String
  deriving DecidableEq, Repr

/-- The message `networkservice.NetworkServiceRequest`. -/
structure NetworkServiceRequest where
  Connection : Connection
  MechanismPreferences : List Mechanism
  deriving DecidableEq, Repr

/-- Modelled from the spec: `nsurl.NSURL` is declared outside src/.  A
descriptor is "service name + label set + mechanism preference"; the three
fields are the results of the accessors `u.NetworkService()`, `u.Labels()` and
`u.Mechanism()`, the last of which returns a single mechanism. -/
structure NSURL where
  NetworkService : String
  Labels : List (String × String)
  Mechanism : Mechanism
  deriving DecidableEq, Repr

/-- Modelled from the spec: `config.Config` is declared outside src/.  It holds
"a target address for the manager, a client name, a dial timeout, a per-request
timeout, and an ordered list of logical network-service descriptors"; the fields
are the ones `main` reads. -/
structure Config where
  Name : String
  ConnectTo : String
  DialTimeout : Duration
  RequestTimeout : Duration
  MaxTokenLifetime : Duration
  NetworkServices : List NSURL
  deriving DecidableEq, Repr

/-- A `context.Context`, as the tree of derivations that built it.  The `id`
of a cancellable context tells apart two contexts created by two separate calls
with the same arguments. -/
inductive Context where
  | background : Context
  | withSignals (parent : Context) : Context
  | withCancel (id : Nat) (parent : Context) : Context
  | withValue (key : String) (parent : Context) : Context
  | withTimeout (id : Nat) (parent : Context) (timeout : Duration) : Context
  deriving DecidableEq, Repr

namespace Context

/-- The context itself followed by its chain of parents, up to the root. -/
def lineage : Context → List Context
  | background => [background]
  | withSignals p => withSignals p :: lineage p
  | withCancel id p => withCancel id p :: lineage p
  | withValue k p => withValue k p :: lineage p
  | withTimeout id p t => withTimeout id p t :: lineage p

/-- Cancellation of `c` (by its cancel function, its deadline or its signal)
reaches `d` exactly when `c` is `d` or one of the contexts `d` derives from. -/
def cancels (c d : Context) : Bool := decide (c ∈ d.lineage)

/-- The deadline a context was created with, when it is a timeout context. -/
def timeout? : Context → Option Duration
  | withTimeout _ _ t => some t
  | _ => none

/-- The parent a context was derived from (`none` for the background). -/
def parent? : Context → Option Context
  | background => none
  | withSignals p => some p
  | withCancel _ p => some p
  | withValue _ p => some p
  | withTimeout _ p _ => some p

end Context

deriving instance DecidableEq for Except

/-- What `main` does that is visible from outside, in the order it happens. -/
inductive Event where
  | info (msg : String)
  | fatal (msg : String)
  | requestCall (i : Nat) (ctx : Context) (request : NetworkServiceRequest)
  | requestReturn (i : Nat) (result : Except String Connection)
  | closeCall (i : Nat) (ctx : Context) (conn : Connection)
  | closeReturn (i : Nat) (result : Except String Unit)
  | cancel (id : Nat)
  | jaegerClose
  | ctxDone
  deriving DecidableEq, Repr

/-- An entry of the stack of deferred calls of `main`. -/
inductive Deferred where
  /-- The line `defer cancel()` or `defer cancelRequest()` for the context `id`. -/
  | cancel (id : Nat)
  /-- The line `defer func() { _ = jaegerCloser.Close() }()`. -/
  | jaegerClose
  /-- The closure deferred by iteration `i` of the loop, which captured that
  iteration's `resp`. -/
  | closeConn (i : Nat) (resp : Connection)
  deriving DecidableEq, Repr

/-- The answers of everything outside `main`.  `request i` and `close i` are
the results of the `Request` call of iteration `i` and of the `Close` call of
the closure deferred by iteration `i`; `signal` tells whether the signal context
is ever done. -/
structure Env where
  usage : Option String
  process : Except String Config
  newX509Source : Option String
  getX509SVID : Except String String
  dialContext : Option String
  request : Nat → Context → NetworkServiceRequest → Except String Connection
  close : Nat → Context → Connection → Except String Unit
  signal : Bool

/-- How a run of the process ends. -/
inductive Outcome where
  | exited (status : Nat)
  | blocked
  deriving DecidableEq, Repr

/-- A run: the trace of events and the way it ended. -/
structure Run where
  trace : List Event
  outcome : Outcome
  deriving DecidableEq, Repr

/-- The state of `main` between two statements. -/
structure State where
  trace : List Event
  deferred : List Deferred
  nextId : Nat
  deriving DecidableEq, Repr

/-! ## The program -/

/-- Appends an event to the trace. -/
def State.emit (st : State) (e : Event) : State :=
  { st with trace := st.trace ++ [e] }

/-- Pushes a deferred call. -/
def State.defer (st : State) (d : Deferred) : State :=
  { st with deferred := d :: st.deferred }

/-- Modelled from the spec: `logger.Fatal` / `logger.Fatalf` belong to the
logging library.  "The process logs the error and terminates with a non-zero
status": the message is logged and the process exits with status 1 at once, as
`os.Exit` does, so the deferred calls of `main` are not run. -/
def Fatalf (st : State) (msg : String) : Run :=
  { trace := st.trace ++ [Event.fatal msg], outcome := Outcome.exited 1 }

/-- The verb `%d` of `fmt.Sprintf` applied to a loop index. -/
def formatInt (i : Nat) : String := Nat.repr i

/-- The expression `fmt.Sprintf("%s-%d", rootConf.Name, i)`. -/
def requestId (name : String) (i : Nat) : String :=
  name ++ "-" ++ formatInt i

/-- The request constructed by iteration `i` of the loop for the descriptor `u`. -/
def mkRequest (name : String) (i : Nat) (u : NSURL) : NetworkServiceRequest :=
  { Connection :=
      { Id := requestId name i
        NetworkService := u.NetworkService
        Labels := u.Labels
        Mechanism := none
        Context := ""
        Path := [] }
    MechanismPreferences := [u.Mechanism] }

/-- The loop `for i := 0; i < len(rootConf.NetworkServices); i++`, entered at
index `i` with the descriptors from `i` on still to do.  The result is the state
after the loop, or the run that ended in `logger.Fatalf`. -/
def initiate (rootConf : Config) (env : Env) (ctx : Context) :
    Nat → List NSURL → State → Except Run State
  | _, [], st => Except.ok st
  | i, u :: rest, st =>
    let request := mkRequest rootConf.Name i u
    let requestCtx := Context.withTimeout st.nextId ctx rootConf.RequestTimeout
    let st := { st with nextId := st.nextId + 1 }
    let st := st.defer (Deferred.cancel (st.nextId - 1))
    let st := st.emit (Event.requestCall i requestCtx request)
    let result := env.request i requestCtx request
    let st := st.emit (Event.requestReturn i result)
    match result with
    | Except.error err => Except.error (Fatalf st ("failed connect to NSMgr: " ++ err))
    | Except.ok resp =>
      let st := st.defer (Deferred.closeConn i resp)
      let st := st.emit (Event.info ("successfully connected to " ++ u.NetworkService))
      initiate rootConf env ctx (i + 1) rest st

/-- Runs a stack of deferred calls, top first, when `main` returns. -/
def runDeferred (rootConf : Config) (env : Env) : List Deferred → State → State
  | [], st => st
  | Deferred.cancel id :: ds, st => runDeferred rootConf env ds (st.emit (Event.cancel id))
  | Deferred.jaegerClose :: ds, st => runDeferred rootConf env ds (st.emit Event.jaegerClose)
  | Deferred.closeConn i resp :: ds, st =>
    let closeCtx := Context.withTimeout st.nextId Context.background rootConf.RequestTimeout
    let st := { st with nextId := st.nextId + 1 }
    let st := st.emit (Event.closeCall i closeCtx resp)
    let st := st.emit (Event.closeReturn i (env.close i closeCtx resp))
    let st := st.emit (Event.cancel (st.nextId - 1))
    runDeferred rootConf env ds st

/-- The context returned by `signalctx.WithSignals(context.Background())`. -/
def signalCtx : Context := Context.withSignals Context.background

/-- The variable `ctx` of `main` once the logger is attached: the signal
context, made cancellable, with the log fields and the logger as values. -/
def mainCtx : Context :=
  Context.withValue "log" (Context.withValue "fields" (Context.withCancel 0 signalCtx))

/-- The function `main`. -/
def main (env : Env) : Run :=
  let st : State := { trace := [], deferred := [], nextId := 1 }
  let st := st.defer (Deferred.cancel 0)
  let st := st.emit (Event.info "Starting NetworkServiceMesh Client ...")
  let ctx := mainCtx
  let st := st.defer Deferred.jaegerClose
  match env.usage with
  | some err => Fatalf st err
  | none =>
  match env.process with
  | Except.error err => Fatalf st ("error processing rootConf from env: " ++ err)
  | Except.ok rootConf =>
  let st := st.emit (Event.info "rootConf")
  match env.newX509Source with
  | some err => Fatalf st ("error getting x509 source: " ++ err)
  | none =>
  match env.getX509SVID with
  | Except.error err => Fatalf st ("error getting x509 svid: " ++ err)
  | Except.ok svid =>
  let st := st.emit (Event.info ("sVID: " ++ svid))
  let st := { st with nextId := st.nextId + 1 }
  let st := st.defer (Deferred.cancel (st.nextId - 1))
  let st := st.emit (Event.info ("NSC: Connecting to Network Service Manager " ++ rootConf.ConnectTo))
  match env.dialContext with
  | some err => Fatalf st ("failed dial to NSMgr: " ++ err)
  | none =>
  match initiate rootConf env ctx 0 rootConf.NetworkServices st with
  | Except.error run => run
  | Except.ok st =>
    if env.signal then
      let st := st.emit Event.ctxDone
      let st := runDeferred rootConf env st.deferred st
      { trace := st.trace, outcome := Outcome.exited 0 }
    else
      { trace := st.trace, outcome := Outcome.blocked }

/-! ## Observations on a trace -/

/-- The `Request` calls: loop index and request, in the order they were issued. -/
def requestCalls (t : List Event) : List (Nat × NetworkServiceRequest) :=
  t.filterMap fun e => match e with
    | Event.requestCall i _ r => some (i, r)
    | _ => none

/-- The loop indices of the `Request` calls, in the order they were issued. -/
def requestIndices (t : List Event) : List Nat := (requestCalls t).map Prod.fst

/-- The calls and returns of `Request`, in the order they happened. -/
def requestEvents (t : List Event) : List Event :=
  t.filter fun e => match e with
    | Event.requestCall _ _ _ => true
    | Event.requestReturn _ _ => true
    | _ => false

/-- The `Close` calls: loop index of the closure that made the call, context
and connection passed, in the order the calls were issued. -/
def closeCalls (t : List Event) : List (Nat × Context × Connection) :=
  t.filterMap fun e => match e with
    | Event.closeCall i ctx c => some (i, ctx, c)
    | _ => none

/-- The loop indices of the `Close` calls, in the order they were issued. -/
def closeIndices (t : List Event) : List Nat := (closeCalls t).map fun p => p.1

/-- The contexts passed to `Close`, in the order the calls were issued. -/
def closeContexts (t : List Event) : List Context := (closeCalls t).map fun p => p.2.1

/-- The connections passed to `Close`, in the order the calls were issued. -/
def closedConnections (t : List Event) : List Connection := (closeCalls t).map fun p => p.2.2

/-- The results of the `Close` calls, in the order the calls returned. -/
def closeResults (t : List Event) : List (Nat × Except String Unit) :=
  t.filterMap fun e => match e with
    | Event.closeReturn i r => some (i, r)
    | _ => none

/-- The context `requestCtx` of iteration `i`. -/
def requestCtx (rootConf : Config) (i : Nat) : Context :=
  Context.withTimeout (i + 2) mainCtx rootConf.RequestTimeout

/-- The startup of `main` up to the loop goes through and yields `rootConf`. -/
def StartupOk (env : Env) (rootConf : Config) : Prop :=
  env.usage = none ∧ env.process = Except.ok rootConf ∧ env.newX509Source = none ∧
    (∃ svid, env.getX509SVID = Except.ok svid) ∧ env.dialContext = none

/-- The `Request` calls for the descriptors of `rootConf` at the indices below
`k` succeed, the one of index `i` returning `resp i`. -/
def RequestsSucceed (env : Env) (rootConf : Config) (resp : Nat → Connection) (k : Nat) : Prop :=
  ∀ i (h : i < rootConf.NetworkServices.length), i < k →
    env.request i (requestCtx rootConf i)
      (mkRequest rootConf.Name i (rootConf.NetworkServices.get ⟨i, h⟩)) = Except.ok (resp i)

/-- The `Request` call for the descriptor of index `k` fails with `err`. -/
def RequestFails (env : Env) (rootConf : Config) (k : Nat) (err : String) : Prop :=
  ∃ h : k < rootConf.NetworkServices.length,
    env.request k (requestCtx rootConf k)
      (mkRequest rootConf.Name k (rootConf.NetworkServices.get ⟨k, h⟩)) = Except.error err

/-! ## Closed forms used in the proofs -/

/-- The events of the iterations from `i` on when every request succeeds. -/
def loopEvents (rootConf : Config) (resp : Nat → Connection) : Nat → List NSURL → List Event
  | _, [] => []
  | i, u :: rest =>
    Event.requestCall i (requestCtx rootConf i) (mkRequest rootConf.Name i u) ::
    Event.requestReturn i (Except.ok (resp i)) ::
    Event.info ("successfully connected to " ++ u.NetworkService) ::
    loopEvents rootConf resp (i + 1) rest

/-- The deferred calls pushed by the iterations from `i` on when every request
succeeds, top of the stack first. -/
def loopDeferred (resp : Nat → Connection) : Nat → List NSURL → List Deferred → List Deferred
  | _, [], ds => ds
  | i, _ :: rest, ds =>
    loopDeferred resp (i + 1) rest (Deferred.closeConn i (resp i) :: Deferred.cancel (i + 2) :: ds)

/-- The events of running a stack of deferred calls, the first context created
having identity `n`. -/
def deferredEvents (rootConf : Config) (env : Env) : Nat → List Deferred → List Event
  | _, [] => []
  | n, Deferred.cancel id :: ds => Event.cancel id :: deferredEvents rootConf env n ds
  | n, Deferred.jaegerClose :: ds => Event.jaegerClose :: deferredEvents rootConf env n ds
  | n, Deferred.closeConn i resp :: ds =>
    Event.closeCall i (Context.withTimeout n Context.background rootConf.RequestTimeout) resp ::
    Event.closeReturn i
      (env.close i (Context.withTimeout n Context.background rootConf.RequestTimeout) resp) ::
    Event.cancel n :: deferredEvents rootConf env (n + 1) ds

/-- The events of `main` before the loop when the startup goes through. -/
def startupEvents (rootConf : Config) (svid : String) : List Event :=
  [Event.info "Starting NetworkServiceMesh Client ...", Event.info "rootConf",
   Event.info ("sVID: " ++ svid),
   Event.info ("NSC: Connecting to Network Service Manager " ++ rootConf.ConnectTo)]

/-- The closures that close a connection in a stack of deferred calls: loop
index and captured response, top of the stack first. -/
def closeEntries (ds : List Deferred) : List (Nat × Connection) :=
  ds.filterMap fun d => match d with
    | Deferred.closeConn i resp => some (i, resp)
    | _ => none

/-- Pairs each closure with the context it creates, the first one having
identity `n`. -/
def withCloseCtx (rootConf : Config) : Nat → List (Nat × Connection) →
    List (Nat × Context × Connection)
  | _, [] => []
  | n, (i, c) :: rest =>
    (i, Context.withTimeout n Context.background rootConf.RequestTimeout, c) ::
      withCloseCtx rootConf (n + 1) rest

/-- The deferred calls pending when the loop is entered, top first: the cancel
function of the dial context, the tracer, the cancel function of `ctx`. -/
def startupDeferred : List Deferred :=
  [Deferred.cancel 1, Deferred.jaegerClose, Deferred.cancel 0]

/-- The trace of the loop, whether it went through or ended in `logger.Fatalf`. -/
def traceOf : Except Run State → List Event
  | Except.ok st => st.trace
  | Except.error run => run.trace

/-- The events of a trace before the wait on `ctx.Done()` returns. -/
def beforeDone (t : List Event) : List Event :=
  t.takeWhile fun e => decide (e ≠ Event.ctxDone)

/-- The number a string of decimal digits stands for. -/
def decimalValue (s : String) : Nat :=
  s.data.foldl (fun a c => 10 * a + (c.toNat - 48)) 0

/-- A kernel-interface mechanism. -/
def kernelMechanism : Mechanism := { Cls := "LOCAL", Type_ := "KERNEL", Parameters := [] }

/-- A device-passthrough mechanism. -/
def vfioMechanism : Mechanism := { Cls := "LOCAL", Type_ := "VFIO", Parameters := [] }

/-- A configuration with three network services for the client `nsc`. -/
def sampleConf : Config :=
  { Name := "nsc"
    ConnectTo := "unix:///var/lib/networkservicemesh/nsm.io.sock"
    DialTimeout := 5
    RequestTimeout := 15
    MaxTokenLifetime := 24
    NetworkServices :=
      [{ NetworkService := "svc-a", Labels := [], Mechanism := kernelMechanism },
       { NetworkService := "svc-b", Labels := [("app", "b")], Mechanism := vfioMechanism },
       { NetworkService := "svc-c", Labels := [], Mechanism := kernelMechanism }] }

/-- The connection the manager returns for the request of index `i`. -/
def sampleResp (i : Nat) : Connection :=
  { Id := requestId "nsc" i
    NetworkService := "svc"
    Labels := []
    Mechanism := some kernelMechanism
    Context := "ctx-" ++ formatInt i
    Path := ["nsmgr"] }

/-- An environment in which the startup and the three requests succeed, the
signal arrives, and every `Close` fails. -/
def sampleEnv : Env :=
  { usage := none
    process := Except.ok sampleConf
    newX509Source := none
    getX509SVID := Except.ok "spiffe://example.org/nsc"
    dialContext := none
    request := fun i _ _ => if i < 3 then Except.ok (sampleResp i) else Except.error "unavailable"
    close := fun _ _ _ => Except.error "deadline exceeded"
    signal := true }

/-- An environment in which the request of index 0 succeeds and the request of
index 1 fails. -/
def failingEnv : Env :=
  { sampleEnv with
    request := fun i _ _ => if i < 1 then Except.ok (sampleResp i) else Except.error "unavailable" }

/-- A `Close` that times out for the connection of index 1 and succeeds for the
others. -/
def flakyClose : Nat → Context → Connection → Except String Unit :=
  fun i _ _ => if i = 1 then (Except.error "timeout") else (Except.ok ())

/-! ## Lemmas on the loop and on the deferred calls -/

theorem initiate_ok (rootConf : Config) (env : Env) (resp : Nat → Connection) :
    ∀ (us : List NSURL) (i : Nat) (st : State), st.nextId = i + 2 →
      (∀ j (h : j < us.length),
        env.request (i + j) (requestCtx rootConf (i + j))
          (mkRequest rootConf.Name (i + j) (us.get ⟨j, h⟩)) = Except.ok (resp (i + j))) →
      initiate rootConf env mainCtx i us st =
        Except.ok { trace := st.trace ++ loopEvents rootConf resp i us
                    deferred := loopDeferred resp i us st.deferred
                    nextId := i + 2 + us.length } := by
  intro us
  induction us with
  | nil => intro i st hid _; cases st; simp_all [initiate, loopEvents, loopDeferred]
  | cons u rest ih =>
    intro i st hid hreq
    have h0 := hreq 0 (by simp)
    simp only [Nat.add_zero, List.get_eq_getElem, List.getElem_cons_zero] at h0
    have hctx : Context.withTimeout st.nextId mainCtx rootConf.RequestTimeout
        = requestCtx rootConf i := by simp [requestCtx, hid]
    unfold initiate
    simp only [hctx, h0, State.emit, State.defer]
    rw [ih (i + 1) _ (by simp [hid])]
    · simp [loopEvents, loopDeferred, hid]; omega
    · intro j h
      have := hreq (j + 1) (by simpa using h)
      simpa [Nat.add_assoc, Nat.add_comm 1 j] using this

theorem initiate_fail (rootConf : Config) (env : Env) (resp : Nat → Connection)
    (u : NSURL) (post : List NSURL) (err : String) :
    ∀ (pre : List NSURL) (i : Nat) (st : State), st.nextId = i + 2 →
      (∀ j (h : j < pre.length),
        env.request (i + j) (requestCtx rootConf (i + j))
          (mkRequest rootConf.Name (i + j) (pre.get ⟨j, h⟩)) = Except.ok (resp (i + j))) →
      env.request (i + pre.length) (requestCtx rootConf (i + pre.length))
          (mkRequest rootConf.Name (i + pre.length) u) = Except.error err →
      initiate rootConf env mainCtx i (pre ++ u :: post) st =
        Except.error
          { trace := st.trace ++ loopEvents rootConf resp i pre ++
              [Event.requestCall (i + pre.length) (requestCtx rootConf (i + pre.length))
                 (mkRequest rootConf.Name (i + pre.length) u),
               Event.requestReturn (i + pre.length) (Except.error err),
               Event.fatal ("failed connect to NSMgr: " ++ err)]
            outcome := Outcome.exited 1 } := by
  intro pre
  induction pre with
  | nil =>
    intro i st hid _ hfail
    have hctx : Context.withTimeout st.nextId mainCtx rootConf.RequestTimeout
        = requestCtx rootConf i := by simp [requestCtx, hid]
    simp only [List.length_nil, Nat.add_zero] at hfail
    simp [initiate, hctx, hfail, State.emit, State.defer, Fatalf, loopEvents]
  | cons v rest ih =>
    intro i st hid hreq hfail
    have h0 := hreq 0 (by simp)
    simp only [Nat.add_zero, List.get_eq_getElem, List.getElem_cons_zero] at h0
    have hctx : Context.withTimeout st.nextId mainCtx rootConf.RequestTimeout
        = requestCtx rootConf i := by simp [requestCtx, hid]
    have hlen : i + (v :: rest).length = i + 1 + rest.length := by simp; omega
    rw [hlen] at hfail
    simp only [List.cons_append]
    unfold initiate
    simp only [hctx, h0, State.emit, State.defer]
    rw [ih (i + 1) _ (by simp [hid]) _ hfail]
    · have hl : i + (rest.length + 1) = i + 1 + rest.length := by omega
      simp [loopEvents, hl]
    · intro j h
      have := hreq (j + 1) (by simpa using h)
      simpa [Nat.add_assoc, Nat.add_comm 1 j] using this

theorem closeCalls_append (a b : List Event) :
    closeCalls (a ++ b) = closeCalls a ++ closeCalls b := by
  simp [closeCalls, List.filterMap_append]

theorem requestCalls_append (a b : List Event) :
    requestCalls (a ++ b) = requestCalls a ++ requestCalls b := by
  simp [requestCalls, List.filterMap_append]

theorem requestEvents_append (a b : List Event) :
    requestEvents (a ++ b) = requestEvents a ++ requestEvents b := by
  simp [requestEvents, List.filter_append]

theorem closeResults_append (a b : List Event) :
    closeResults (a ++ b) = closeResults a ++ closeResults b := by
  simp [closeResults, List.filterMap_append]

/-- The loop never calls `Close`, whatever the requests return. -/
theorem initiate_closeCalls (rootConf : Config) (env : Env) (ctx : Context) :
    ∀ (us : List NSURL) (i : Nat) (st : State),
      match initiate rootConf env ctx i us st with
      | Except.ok st1 => closeCalls st1.trace = closeCalls st.trace
      | Except.error run => closeCalls run.trace = closeCalls st.trace := by
  intro us
  induction us with
  | nil => intro i st; simp [initiate]
  | cons u rest ih =>
    intro i st
    unfold initiate
    simp only []
    cases hres : env.request i (Context.withTimeout st.nextId ctx rootConf.RequestTimeout)
        (mkRequest rootConf.Name i u) with
    | error err => simp [Fatalf, State.emit, State.defer, closeCalls_append, closeCalls]
    | ok c =>
      simp only []
      have := ih (i + 1) (((((State.mk st.trace st.deferred (st.nextId + 1)).defer
        (Deferred.cancel (st.nextId + 1 - 1))).emit
        (Event.requestCall i (Context.withTimeout st.nextId ctx rootConf.RequestTimeout)
          (mkRequest rootConf.Name i u))).emit (Event.requestReturn i (Except.ok c))).defer
          (Deferred.closeConn i c) |>.emit
          (Event.info ("successfully connected to " ++ u.NetworkService)))
      revert this
      split
      · intro h; rw [h]; simp [State.emit, State.defer, closeCalls_append, closeCalls]
      · intro h; rw [h]; simp [State.emit, State.defer, closeCalls_append, closeCalls]

theorem runDeferred_trace (rootConf : Config) (env : Env) :
    ∀ (ds : List Deferred) (st : State),
      (runDeferred rootConf env ds st).trace =
        st.trace ++ deferredEvents rootConf env st.nextId ds := by
  intro ds
  induction ds with
  | nil => intro st; simp [runDeferred, deferredEvents]
  | cons d ds ih =>
    intro st
    cases d <;> simp [runDeferred, deferredEvents, ih, State.emit]

theorem closeCalls_startupEvents (rootConf : Config) (svid : String) :
    closeCalls (startupEvents rootConf svid) = [] := by
  simp [closeCalls, startupEvents]

theorem closeCalls_loopEvents (rootConf : Config) (resp : Nat → Connection) :
    ∀ (us : List NSURL) (i : Nat), closeCalls (loopEvents rootConf resp i us) = [] := by
  intro us
  induction us with
  | nil => intro i; simp [loopEvents, closeCalls]
  | cons u rest ih =>
    intro i
    have := ih (i + 1)
    simp only [closeCalls] at this
    simp [loopEvents, closeCalls, this]

theorem closeCalls_deferredEvents (rootConf : Config) (env : Env) :
    ∀ (ds : List Deferred) (n : Nat),
      closeCalls (deferredEvents rootConf env n ds) = withCloseCtx rootConf n (closeEntries ds) := by
  intro ds
  induction ds with
  | nil => intro n; simp [deferredEvents, closeCalls, closeEntries, withCloseCtx]
  | cons d ds ih =>
    intro n
    cases d with
    | cancel id =>
      have := ih n
      simp only [closeCalls, closeEntries] at this
      simp [deferredEvents, closeCalls, closeEntries, this]
    | jaegerClose =>
      have := ih n
      simp only [closeCalls, closeEntries] at this
      simp [deferredEvents, closeCalls, closeEntries, this]
    | closeConn i c =>
      have := ih (n + 1)
      simp only [closeCalls, closeEntries] at this
      simp [deferredEvents, closeCalls, closeEntries, withCloseCtx, this]

theorem closeEntries_loopDeferred (resp : Nat → Connection) :
    ∀ (us : List NSURL) (i : Nat) (ds : List Deferred),
      closeEntries (loopDeferred resp i us ds) =
        ((List.range us.length).map fun j => (i + j, resp (i + j))).reverse ++ closeEntries ds := by
  intro us
  induction us with
  | nil => intro i ds; simp [loopDeferred]
  | cons u rest ih =>
    intro i ds
    simp only [loopDeferred, ih, List.length_cons, List.range_succ_eq_map, List.map_cons,
      List.map_map, List.reverse_cons, List.append_assoc]
    congr 1
    · congr 1
      apply List.map_congr_left
      intro j _
      simp [Nat.add_assoc, Nat.add_comm 1 j]

theorem withCloseCtx_indices (rootConf : Config) :
    ∀ (l : List (Nat × Connection)) (n : Nat),
      (withCloseCtx rootConf n l).map (fun p => p.1) = l.map Prod.fst := by
  intro l
  induction l with
  | nil => intro n; simp [withCloseCtx]
  | cons a l ih => intro n; obtain ⟨i, c⟩ := a; simp [withCloseCtx, ih]

theorem withCloseCtx_connections (rootConf : Config) :
    ∀ (l : List (Nat × Connection)) (n : Nat),
      (withCloseCtx rootConf n l).map (fun p => (p.1, p.2.2)) = l := by
  intro l
  induction l with
  | nil => intro n; simp [withCloseCtx]
  | cons a l ih => intro n; obtain ⟨i, c⟩ := a; simp [withCloseCtx, ih]

theorem withCloseCtx_contexts (rootConf : Config) :
    ∀ (l : List (Nat × Connection)) (n : Nat),
      (withCloseCtx rootConf n l).map (fun p => p.2.1) =
        (List.range l.length).map fun j =>
          Context.withTimeout (n + j) Context.background rootConf.RequestTimeout := by
  intro l
  induction l with
  | nil => intro n; simp [withCloseCtx]
  | cons a l ih =>
    intro n
    obtain ⟨i, c⟩ := a
    simp only [withCloseCtx, List.map_cons, ih, List.length_cons, List.range_succ_eq_map,
      List.map_map, Nat.add_zero]
    congr 1
    apply List.map_congr_left
    intro j _
    simp [Nat.add_assoc, Nat.add_comm 1 j]

theorem requestCalls_loopEvents (rootConf : Config) (resp : Nat → Connection) :
    ∀ (us : List NSURL) (i : Nat),
      requestCalls (loopEvents rootConf resp i us) =
        (us.enumFrom i).map fun p => (p.1, mkRequest rootConf.Name p.1 p.2) := by
  intro us
  induction us with
  | nil => intro i; simp [loopEvents, requestCalls]
  | cons u rest ih =>
    intro i
    have := ih (i + 1)
    simp only [requestCalls] at this
    simp [loopEvents, requestCalls, List.enumFrom_cons, this]

theorem requestCalls_deferredEvents (rootConf : Config) (env : Env) :
    ∀ (ds : List Deferred) (n : Nat), requestCalls (deferredEvents rootConf env n ds) = [] := by
  intro ds
  induction ds with
  | nil => intro n; simp [deferredEvents, requestCalls]
  | cons d ds ih =>
    intro n
    cases d with
    | cancel id => have := ih n; simp only [requestCalls] at this; simp [deferredEvents, requestCalls, this]
    | jaegerClose => have := ih n; simp only [requestCalls] at this; simp [deferredEvents, requestCalls, this]
    | closeConn i c =>
      have := ih (n + 1); simp only [requestCalls] at this; simp [deferredEvents, requestCalls, this]

theorem requestEvents_loopEvents (rootConf : Config) (resp : Nat → Connection) :
    ∀ (us : List NSURL) (i : Nat),
      requestEvents (loopEvents rootConf resp i us) =
        (us.enumFrom i).flatMap fun p =>
          [Event.requestCall p.1 (requestCtx rootConf p.1) (mkRequest rootConf.Name p.1 p.2),
           Event.requestReturn p.1 (Except.ok (resp p.1))] := by
  intro us
  induction us with
  | nil => intro i; simp [loopEvents, requestEvents]
  | cons u rest ih =>
    intro i
    have := ih (i + 1)
    simp only [requestEvents] at this
    simp [loopEvents, requestEvents, List.enumFrom_cons, this]

theorem requestEvents_deferredEvents (rootConf : Config) (env : Env) :
    ∀ (ds : List Deferred) (n : Nat), requestEvents (deferredEvents rootConf env n ds) = [] := by
  intro ds
  induction ds with
  | nil => intro n; simp [deferredEvents, requestEvents]
  | cons d ds ih =>
    intro n
    cases d with
    | cancel id => have := ih n; simp only [requestEvents] at this; simp [deferredEvents, requestEvents, this]
    | jaegerClose => have := ih n; simp only [requestEvents] at this; simp [deferredEvents, requestEvents, this]
    | closeConn i c =>
      have := ih (n + 1); simp only [requestEvents] at this; simp [deferredEvents, requestEvents, this]

theorem ctxDone_not_mem_loopEvents (rootConf : Config) (resp : Nat → Connection) :
    ∀ (us : List NSURL) (i : Nat), Event.ctxDone ∉ loopEvents rootConf resp i us := by
  intro us
  induction us with
  | nil => intro i; simp [loopEvents]
  | cons u rest ih => intro i; simp [loopEvents, ih]

/-- The run of `main` when the startup goes through and every request succeeds. -/
theorem main_ok (env : Env) (rootConf : Config) (resp : Nat → Connection) (svid : String)
    (hu : env.usage = none) (hp : env.process = Except.ok rootConf)
    (hx : env.newX509Source = none) (hs : env.getX509SVID = Except.ok svid)
    (hd : env.dialContext = none)
    (hreq : RequestsSucceed env rootConf resp rootConf.NetworkServices.length) :
    main env =
      if env.signal then
        { trace := startupEvents rootConf svid ++
            loopEvents rootConf resp 0 rootConf.NetworkServices ++
            Event.ctxDone :: deferredEvents rootConf env (rootConf.NetworkServices.length + 2)
              (loopDeferred resp 0 rootConf.NetworkServices startupDeferred)
          outcome := Outcome.exited 0 }
      else
        { trace := startupEvents rootConf svid ++
            loopEvents rootConf resp 0 rootConf.NetworkServices
          outcome := Outcome.blocked } := by
  unfold main
  simp only [hu, hp, hx, hs, hd, State.emit, State.defer]
  rw [initiate_ok rootConf env resp rootConf.NetworkServices 0 _ (by rfl)
    (by intro j h; simpa using hreq j h h)]
  cases env.signal <;>
    simp [runDeferred_trace, State.emit, startupEvents, startupDeferred, Nat.add_comm]

/-- The run of `main` when the startup goes through, the requests of index
below `k` succeed and the request of index `k` fails. -/
theorem main_fail (env : Env) (rootConf : Config) (resp : Nat → Connection) (svid : String)
    (k : Nat) (err : String)
    (hu : env.usage = none) (hp : env.process = Except.ok rootConf)
    (hx : env.newX509Source = none) (hs : env.getX509SVID = Except.ok svid)
    (hd : env.dialContext = none)
    (hreq : RequestsSucceed env rootConf resp k)
    (hk : k < rootConf.NetworkServices.length)
    (hfail : env.request k (requestCtx rootConf k)
      (mkRequest rootConf.Name k (rootConf.NetworkServices.get ⟨k, hk⟩)) = Except.error err) :
    main env =
      { trace := startupEvents rootConf svid ++
          loopEvents rootConf resp 0 (rootConf.NetworkServices.take k) ++
          [Event.requestCall k (requestCtx rootConf k)
             (mkRequest rootConf.Name k (rootConf.NetworkServices.get ⟨k, hk⟩)),
           Event.requestReturn k (Except.error err),
           Event.fatal ("failed connect to NSMgr: " ++ err)]
        outcome := Outcome.exited 1 } := by
  have hsplit : rootConf.NetworkServices =
      rootConf.NetworkServices.take k ++
        rootConf.NetworkServices.get ⟨k, hk⟩ :: rootConf.NetworkServices.drop (k + 1) := by
    rw [List.get_eq_getElem, List.getElem_cons_drop, List.take_append_drop]
  have hlen : (rootConf.NetworkServices.take k).length = k := by
    simp [List.length_take]; omega
  have hinit := initiate_fail rootConf env resp (rootConf.NetworkServices.get ⟨k, hk⟩)
    (rootConf.NetworkServices.drop (k + 1)) err (rootConf.NetworkServices.take k) 0
    { trace := startupEvents rootConf svid, deferred := startupDeferred, nextId := 2 } (by rfl)
    (by
      intro j h
      have hj : j < k := by rw [hlen] at h; exact h
      have := hreq j (by omega) hj
      simpa [List.getElem_take] using this)
    (by simpa [hlen] using hfail)
  rw [← hsplit] at hinit
  unfold main
  simp only [hu, hp, hx, hs, hd, State.emit, State.defer]
  simp only [startupEvents, startupDeferred, List.nil_append, List.singleton_append,
    List.cons_append, Nat.add_sub_cancel, Nat.reduceAdd] at hinit ⊢
  rw [hinit]
  simp [hlen]

/-! ## Decimal rendering of the index -/

theorem digitChar_value (m : Nat) (h : m < 10) : (Nat.digitChar m).toNat - 48 = m := by
  interval_cases m <;> rfl

theorem toDigitsCore_append :
    ∀ (fuel n : Nat) (ds : List Char),
      Nat.toDigitsCore 10 fuel n ds = Nat.toDigitsCore 10 fuel n [] ++ ds := by
  intro fuel
  induction fuel with
  | zero => intro n ds; simp [Nat.toDigitsCore]
  | succ f ih =>
    intro n ds
    simp only [Nat.toDigitsCore]
    split
    · simp
    · rw [ih _ (_ :: ds), ih _ [_]]; simp

theorem toDigitsCore_value :
    ∀ (fuel n : Nat), n < fuel →
      (Nat.toDigitsCore 10 fuel n []).foldl (fun a c => 10 * a + (c.toNat - 48)) 0 = n := by
  intro fuel
  induction fuel with
  | zero => intro n h; omega
  | succ f ih =>
    intro n h
    simp only [Nat.toDigitsCore]
    split
    · rename_i h0
      have hn : n < 10 := by omega
      simp [Nat.mod_eq_of_lt hn, digitChar_value n hn]
    · rename_i h0
      rw [toDigitsCore_append, List.foldl_append, ih (n / 10) (by omega)]
      simp [digitChar_value (n % 10) (Nat.mod_lt _ (by decide))]
      omega

theorem decimalValue_formatInt (i : Nat) : decimalValue (formatInt i) = i := by
  simp only [decimalValue, formatInt, Nat.repr, Nat.toDigits, List.asString]
  exact toDigitsCore_value (i + 1) i (Nat.lt_succ_self i)

theorem formatInt_injective (i j : Nat) (h : formatInt i = formatInt j) : i = j := by
  have := congrArg decimalValue h
  simpa [decimalValue_formatInt] using this

theorem requestId_injective (name : String) (i j : Nat)
    (h : requestId name i = requestId name j) : i = j := by
  apply formatInt_injective
  have hd := congrArg String.data h
  simp only [requestId, String.data_append] at hd
  have := List.append_cancel_left hd
  exact String.ext this

/-! ## Facts that hold in every run -/

/-- Every `Request` call of the loop carries the request built from the
descriptor of its index, whatever the requests return. -/
theorem initiate_requestCalls (rootConf : Config) (env : Env) (ctx : Context) :
    ∀ (us : List NSURL) (i : Nat) (st : State) (p : Nat × NetworkServiceRequest),
      p ∈ requestCalls (traceOf (initiate rootConf env ctx i us st)) →
        p ∈ requestCalls st.trace ∨
          ∃ (j : Nat) (h : j < us.length),
            p = (i + j, mkRequest rootConf.Name (i + j) (us.get ⟨j, h⟩)) := by
  intro us
  induction us with
  | nil => intro i st p hp; left; simpa [initiate, traceOf] using hp
  | cons u rest ih =>
    intro i st p hp
    unfold initiate at hp
    simp only [] at hp
    cases hres : env.request i (Context.withTimeout st.nextId ctx rootConf.RequestTimeout)
        (mkRequest rootConf.Name i u) with
    | error err =>
      rw [hres] at hp
      simp only [traceOf, Fatalf, State.emit, State.defer, requestCalls_append,
        List.mem_append] at hp
      rcases hp with ((hp | hp) | hp) | hp
      · left; exact hp
      · right; refine ⟨0, by simp, ?_⟩
        simpa [requestCalls] using hp
      · simp [requestCalls] at hp
      · simp [requestCalls] at hp
    | ok c =>
      rw [hres] at hp
      simp only [] at hp
      rcases ih (i + 1) _ p hp with h | ⟨j, hj, h⟩
      · simp only [State.emit, State.defer, requestCalls_append, List.mem_append] at h
        rcases h with ((h | h) | h) | h
        · left; exact h
        · right; refine ⟨0, by simp, ?_⟩
          simpa [requestCalls] using h
        · simp [requestCalls] at h
        · simp [requestCalls] at h
      · right
        refine ⟨j + 1, by simpa using hj, ?_⟩
        simpa [Nat.add_assoc, Nat.add_comm 1 j] using h

/-- In every run the `Request` calls carry the requests built from the
configured descriptors. -/
theorem main_requestCalls (env : Env) (rootConf : Config)
    (hp : env.process = Except.ok rootConf) (p : Nat × NetworkServiceRequest)
    (hmem : p ∈ requestCalls (main env).trace) :
    ∃ h : p.1 < rootConf.NetworkServices.length,
      p.2 = mkRequest rootConf.Name p.1 (rootConf.NetworkServices.get ⟨p.1, h⟩) := by
  unfold main at hmem
  simp only [hp, State.emit, State.defer] at hmem
  split at hmem
  · simp [Fatalf, requestCalls] at hmem
  split at hmem
  · simp [Fatalf, requestCalls] at hmem
  split at hmem
  · simp [Fatalf, requestCalls] at hmem
  split at hmem
  · simp [Fatalf, requestCalls] at hmem
  have key : ∀ res, res = initiate rootConf env mainCtx 0 rootConf.NetworkServices
      { trace := [] ++ [Event.info "Starting NetworkServiceMesh Client ..."] ++
          [Event.info "rootConf"] ++ [Event.info ("sVID: " ++ ‹String›)] ++
          [Event.info ("NSC: Connecting to Network Service Manager " ++ rootConf.ConnectTo)]
        deferred := [Deferred.cancel (1 + 1 - 1), Deferred.jaegerClose, Deferred.cancel 0]
        nextId := 1 + 1 } →
      p ∈ requestCalls (traceOf res) →
      ∃ h : p.1 < rootConf.NetworkServices.length,
        p.2 = mkRequest rootConf.Name p.1 (rootConf.NetworkServices.get ⟨p.1, h⟩) := by
    intro res hres hm
    rw [hres] at hm
    rcases initiate_requestCalls rootConf env mainCtx _ 0 _ p hm with h | ⟨j, hj, h⟩
    · simp [requestCalls] at h
    · subst h
      exact ⟨by simpa using hj, by simp⟩
  split at hmem
  · rename_i run hrun
    exact key _ hrun.symm (by simpa [traceOf] using hmem)
  · rename_i st hst
    apply key _ hst.symm
    split at hmem
    · simp only [runDeferred_trace, requestCalls_append, requestCalls_deferredEvents,
        List.append_nil, List.mem_append] at hmem
      rcases hmem with h | h
      · simpa [traceOf] using h
      · simp [requestCalls] at h
    · simpa [traceOf] using hmem


theorem traceOf_initiate_closeCalls (rootConf : Config) (env : Env) (ctx : Context)
    (us : List NSURL) (i : Nat) (st : State) :
    closeCalls (traceOf (initiate rootConf env ctx i us st)) = closeCalls st.trace := by
  have := initiate_closeCalls rootConf env ctx us i st
  revert this
  generalize initiate rootConf env ctx i us st = r
  intro h
  cases r <;> simpa [traceOf] using h

/-- In every run the `Close` calls are the ones made by deferred closures, each
under a context created for it from the background context. -/
theorem main_closeCalls (env : Env) (rootConf : Config)
    (hp : env.process = Except.ok rootConf) :
    ∃ (n : Nat) (l : List (Nat × Connection)),
      closeCalls (main env).trace = withCloseCtx rootConf n l := by
  unfold main
  simp only [hp, State.emit, State.defer]
  split
  · exact ⟨0, [], by simp [Fatalf, closeCalls, withCloseCtx]⟩
  split
  · exact ⟨0, [], by simp [Fatalf, closeCalls, withCloseCtx]⟩
  split
  · exact ⟨0, [], by simp [Fatalf, closeCalls, withCloseCtx]⟩
  split
  · exact ⟨0, [], by simp [Fatalf, closeCalls, withCloseCtx]⟩
  split
  · rename_i run hrun
    have h : closeCalls (traceOf (Except.error run)) = [] := by
      rw [← hrun, traceOf_initiate_closeCalls]; simp [closeCalls]
    exact ⟨0, [], by simpa [traceOf, closeCalls, withCloseCtx] using h⟩
  · rename_i st hst
    have h : closeCalls (traceOf (Except.ok st)) = [] := by
      rw [← hst, traceOf_initiate_closeCalls]; simp [closeCalls]
    have hnil : closeCalls st.trace = [] := by simpa [traceOf, closeCalls] using h
    split
    · refine ⟨st.nextId, closeEntries st.deferred, ?_⟩
      simp only [runDeferred_trace, closeCalls_append, hnil, closeCalls_deferredEvents]
      simp [closeCalls]
    · exact ⟨0, [], by simpa [withCloseCtx] using hnil⟩

theorem beforeDone_append_done (post : List Event) :
    ∀ pre : List Event, Event.ctxDone ∉ pre →
      beforeDone (pre ++ Event.ctxDone :: post) = pre := by
  intro pre
  induction pre with
  | nil => intro _; simp [beforeDone]
  | cons e pre ih =>
    intro h
    simp only [List.mem_cons, not_or] at h
    have he : decide (e ≠ Event.ctxDone) = true := by simpa using Ne.symm h.1
    have := ih h.2
    simp only [beforeDone] at this
    simp only [beforeDone, List.cons_append, List.takeWhile_cons, he, if_true, this]

theorem beforeDone_of_not_mem :
    ∀ t : List Event, Event.ctxDone ∉ t → beforeDone t = t := by
  intro t
  induction t with
  | nil => intro _; simp [beforeDone]
  | cons e t ih =>
    intro h
    simp only [List.mem_cons, not_or] at h
    have he : decide (e ≠ Event.ctxDone) = true := by simpa using Ne.symm h.1
    have := ih h.2
    simp only [beforeDone] at this
    simp only [beforeDone, List.takeWhile_cons, he, if_true, this]

theorem closeResults_loopEvents (rootConf : Config) (resp : Nat → Connection) :
    ∀ (us : List NSURL) (i : Nat), closeResults (loopEvents rootConf resp i us) = [] := by
  intro us
  induction us with
  | nil => intro i; simp [loopEvents, closeResults]
  | cons u rest ih =>
    intro i
    have := ih (i + 1)
    simp only [closeResults] at this
    simp [loopEvents, closeResults, this]

theorem closeResults_deferredEvents (rootConf : Config) (env : Env) :
    ∀ (ds : List Deferred) (n : Nat),
      closeResults (deferredEvents rootConf env n ds) =
        (withCloseCtx rootConf n (closeEntries ds)).map
          fun p => (p.1, env.close p.1 p.2.1 p.2.2) := by
  intro ds
  induction ds with
  | nil => intro n; simp [deferredEvents, closeResults, closeEntries, withCloseCtx]
  | cons d ds ih =>
    intro n
    cases d with
    | cancel id =>
      have := ih n
      simp only [closeResults, closeEntries] at this
      simp [deferredEvents, closeResults, closeEntries, this]
    | jaegerClose =>
      have := ih n
      simp only [closeResults, closeEntries] at this
      simp [deferredEvents, closeResults, closeEntries, this]
    | closeConn i c =>
      have := ih (n + 1)
      simp only [closeResults, closeEntries] at this
      simp [deferredEvents, closeResults, closeEntries, withCloseCtx, this]

theorem requestReturn_mem_loopEvents (rootConf : Config) (resp : Nat → Connection) :
    ∀ (us : List NSURL) (i j : Nat), j < us.length →
      Event.requestReturn (i + j) (Except.ok (resp (i + j))) ∈ loopEvents rootConf resp i us := by
  intro us
  induction us with
  | nil => intro i j h; simp at h
  | cons u rest ih =>
    intro i j h
    cases j with
    | zero => simp [loopEvents]
    | succ j =>
      have := ih (i + 1) j (by simpa using h)
      simp only [loopEvents, List.mem_cons]
      right; right; right
      simpa [Nat.add_assoc, Nat.add_comm 1 j] using this

/-- The `Close` calls of a run in which the startup goes through, every request
succeeds and the signal arrives. -/
theorem closeCalls_main_ok (env : Env) (rootConf : Config) (resp : Nat → Connection)
    (hstart : StartupOk env rootConf)
    (hreq : RequestsSucceed env rootConf resp rootConf.NetworkServices.length)
    (hsig : env.signal = true) :
    closeCalls (main env).trace =
      withCloseCtx rootConf (rootConf.NetworkServices.length + 2)
        ((List.range rootConf.NetworkServices.length).map fun i => (i, resp i)).reverse := by
  obtain ⟨hu, hp, hx, ⟨svid, hs⟩, hd⟩ := hstart
  rw [main_ok env rootConf resp svid hu hp hx hs hd hreq]
  simp only [hsig, if_true]
  rw [closeCalls_append, closeCalls_append, closeCalls_startupEvents, closeCalls_loopEvents,
    ← List.singleton_append, closeCalls_append, closeCalls_deferredEvents,
    closeEntries_loopDeferred]
  simp [closeCalls, closeEntries, startupDeferred]

theorem sampleEnv_startupOk : StartupOk sampleEnv sampleConf :=
  ⟨rfl, rfl, rfl, ⟨_, rfl⟩, rfl⟩

theorem sampleEnv_requestsSucceed :
    RequestsSucceed sampleEnv sampleConf sampleResp sampleConf.NetworkServices.length := by
  intro i _ hi
  have hi3 : i < 3 := hi
  simp [sampleEnv, hi3]

theorem failingEnv_startupOk : StartupOk failingEnv sampleConf :=
  ⟨rfl, rfl, rfl, ⟨_, rfl⟩, rfl⟩

theorem failingEnv_requestsSucceed : RequestsSucceed failingEnv sampleConf sampleResp 1 := by
  intro i _ hi
  have h0 : i = 0 := by omega
  subst h0
  simp [failingEnv]

theorem failingEnv_requestFails : RequestFails failingEnv sampleConf 1 "unavailable" :=
  ⟨by decide, by simp [failingEnv]⟩


theorem withCloseCtx_closed (rootConf : Config) :
    ∀ (l : List (Nat × Connection)) (n : Nat),
      (withCloseCtx rootConf n l).map (fun p => p.2.2) = l.map Prod.snd := by
  intro l
  induction l with
  | nil => intro n; simp [withCloseCtx]
  | cons a l ih => intro n; obtain ⟨i, c⟩ := a; simp [withCloseCtx, ih]

theorem outcome_main_ok (env : Env) (rootConf : Config) (resp : Nat → Connection)
    (hstart : StartupOk env rootConf)
    (hreq : RequestsSucceed env rootConf resp rootConf.NetworkServices.length) :
    (main env).outcome = if env.signal then Outcome.exited 0 else Outcome.blocked := by
  obtain ⟨hu, hp, hx, ⟨svid, hs⟩, hd⟩ := hstart
  rw [main_ok env rootConf resp svid hu hp hx hs hd hreq]
  cases env.signal <;> simp

/-! ## The claims -/

/-- C1: when the startup goes through, all N requests succeed and the shutdown
signal fires, `main` calls `Close` once for each of the N returned connections,
in the order N-1, N-2, ..., 0, the reverse of the order in which the requests
succeeded. -/
theorem close_order_is_reverse_of_request_order (env : Env) (rootConf : Config)
    (resp : Nat → Connection) (hstart : StartupOk env rootConf)
    (hreq : RequestsSucceed env rootConf resp rootConf.NetworkServices.length)
    (hsig : env.signal = true) :
    closeIndices (main env).trace = (List.range rootConf.NetworkServices.length).reverse ∧
    closedConnections (main env).trace =
      ((List.range rootConf.NetworkServices.length).map resp).reverse := by
  have h := closeCalls_main_ok env rootConf resp hstart hreq hsig
  constructor
  · rw [closeIndices, h, withCloseCtx_indices]
    simp [List.map_reverse, Function.comp_def]
  · rw [closedConnections, h, withCloseCtx_closed]
    simp [List.map_reverse, Function.comp_def]

theorem close_order_is_reverse_of_request_order_witness :
    closeIndices (main sampleEnv).trace = [2, 1, 0] ∧
    closedConnections (main sampleEnv).trace = [sampleResp 2, sampleResp 1, sampleResp 0] :=
  close_order_is_reverse_of_request_order sampleEnv sampleConf sampleResp
    sampleEnv_startupOk sampleEnv_requestsSucceed rfl

/-- C2: the id of the request of index `i` is the client name, then "-", then
the decimal rendering of `i`, and two distinct indices give two different ids
for the same client name. -/
theorem request_ids_are_unique (name : String) (i j : Nat) (u v : NSURL) (hij : i ≠ j) :
    (mkRequest name i u).Connection.Id = name ++ "-" ++ Nat.repr i ∧
    decimalValue (Nat.repr i) = i ∧
    (mkRequest name i u).Connection.Id ≠ (mkRequest name j v).Connection.Id := by
  refine ⟨rfl, decimalValue_formatInt i, ?_⟩
  intro h
  exact hij (requestId_injective name i j h)

theorem request_ids_are_unique_witness :
    (mkRequest "nsc" 0 ⟨"svc-a", [], kernelMechanism⟩).Connection.Id = "nsc-0" ∧
    (mkRequest "nsc" 1 ⟨"svc-b", [], vfioMechanism⟩).Connection.Id = "nsc-1" ∧
    (mkRequest "nsc" 0 ⟨"svc-a", [], kernelMechanism⟩).Connection.Id ≠
      (mkRequest "nsc" 1 ⟨"svc-b", [], vfioMechanism⟩).Connection.Id :=
  ⟨by decide, by decide,
    (request_ids_are_unique "nsc" 0 1 ⟨"svc-a", [], kernelMechanism⟩
      ⟨"svc-b", [], vfioMechanism⟩ (by decide)).2.2⟩

/-- C3: evaluation of `main` where the request of index 0 succeeds and the
request of index 1 fails: the connection returned for index 0 is never passed to
`Close` and the process exits with status 1. -/
theorem partial_failure_closes_nothing :
    Event.requestReturn 0 (Except.ok (sampleResp 0)) ∈ (main failingEnv).trace ∧
    closeCalls (main failingEnv).trace = [] ∧
    (main failingEnv).outcome = Outcome.exited 1 := by
  decide

/-- C4: when the requests of index below `k` succeed and the request of index
`k` fails, the process exits with status 1 right after logging the failure: the
`Request` calls issued are those of index 0, ..., k and the wait for the
shutdown signal is never entered. -/
theorem failed_request_is_fatal (env : Env) (rootConf : Config) (resp : Nat → Connection)
    (k : Nat) (err : String) (hstart : StartupOk env rootConf)
    (hreq : RequestsSucceed env rootConf resp k) (hfail : RequestFails env rootConf k err) :
    (main env).outcome = Outcome.exited 1 ∧
    requestIndices (main env).trace = List.range (k + 1) ∧
    Event.ctxDone ∉ (main env).trace ∧
    (main env).trace.getLast? = some (Event.fatal ("failed connect to NSMgr: " ++ err)) := by
  obtain ⟨hu, hp, hx, ⟨svid, hs⟩, hd⟩ := hstart
  obtain ⟨hk, hfail⟩ := hfail
  rw [main_fail env rootConf resp svid k err hu hp hx hs hd hreq hk hfail]
  have hlen : (rootConf.NetworkServices.take k).length = k := by
    simp [List.length_take]; omega
  refine ⟨rfl, ?_, ?_, ?_⟩
  · simp only [requestIndices, requestCalls_append, requestCalls_loopEvents, List.map_append,
      List.map_map]
    have h1 : requestCalls (startupEvents rootConf svid) = [] := by
      simp [requestCalls, startupEvents]
    have h2 : List.map (Prod.fst ∘ fun p : Nat × NSURL => (p.1, mkRequest rootConf.Name p.1 p.2))
        (List.enumFrom 0 (rootConf.NetworkServices.take k)) = List.range k := by
      have : (Prod.fst ∘ fun p : Nat × NSURL => (p.1, mkRequest rootConf.Name p.1 p.2))
          = Prod.fst := by funext p; rfl
      rw [this, List.enumFrom_map_fst, hlen, List.range_eq_range']
    rw [h1, h2, List.range_succ]
    simp [requestCalls]
  · simp [startupEvents, ctxDone_not_mem_loopEvents]
  · simp [List.getLast?_append]

theorem failed_request_is_fatal_witness :
    (main failingEnv).outcome = Outcome.exited 1 ∧
    requestIndices (main failingEnv).trace = [0, 1] ∧
    Event.ctxDone ∉ (main failingEnv).trace ∧
    (main failingEnv).trace.getLast? =
      some (Event.fatal ("failed connect to NSMgr: " ++ "unavailable")) :=
  failed_request_is_fatal failingEnv sampleConf sampleResp 1 "unavailable"
    failingEnv_startupOk failingEnv_requestsSucceed failingEnv_requestFails


/-- C5: when the startup goes through, all N requests succeed and the signal
fires, then whatever each `Close` call returns (success or error), the N `Close`
calls are made in the same reverse order with the same arguments, each result is
the one the environment gave, and the process exits with status 0. -/
theorem close_failures_do_not_stop_teardown (env : Env) (rootConf : Config)
    (resp : Nat → Connection)
    (closeOutcome : Nat → Context → Connection → Except String Unit)
    (hstart : StartupOk env rootConf)
    (hreq : RequestsSucceed env rootConf resp rootConf.NetworkServices.length)
    (hsig : env.signal = true) :
    closeIndices (main { env with close := closeOutcome }).trace =
      (List.range rootConf.NetworkServices.length).reverse ∧
    closeCalls (main { env with close := closeOutcome }).trace = closeCalls (main env).trace ∧
    closeResults (main { env with close := closeOutcome }).trace =
      (closeCalls (main env).trace).map (fun p => (p.1, closeOutcome p.1 p.2.1 p.2.2)) ∧
    (main { env with close := closeOutcome }).outcome = Outcome.exited 0 := by
  have hstart2 : StartupOk { env with close := closeOutcome } rootConf := hstart
  have hreq2 : RequestsSucceed { env with close := closeOutcome } rootConf resp
      rootConf.NetworkServices.length := hreq
  have hsig2 : ({ env with close := closeOutcome } : Env).signal = true := hsig
  have h1 := closeCalls_main_ok env rootConf resp hstart hreq hsig
  have h2 := closeCalls_main_ok _ rootConf resp hstart2 hreq2 hsig2
  refine ⟨?_, ?_, ?_, ?_⟩
  · rw [closeIndices, h2, withCloseCtx_indices]
    simp [List.map_reverse, Function.comp_def]
  · rw [h1, h2]
  · rw [h1]
    obtain ⟨hu, hp, hx, ⟨svid, hs⟩, hd⟩ := hstart2
    rw [main_ok _ rootConf resp svid hu hp hx hs hd hreq2]
    simp only [hsig, if_true]
    rw [closeResults_append, closeResults_append, closeResults_loopEvents,
      ← List.singleton_append, closeResults_append, closeResults_deferredEvents,
      closeEntries_loopDeferred]
    simp [closeResults, closeEntries, startupDeferred, startupEvents]
  · rw [outcome_main_ok _ rootConf resp hstart2 hreq2]
    simp [hsig]

theorem close_failures_do_not_stop_teardown_witness :
    closeIndices (main { sampleEnv with close := flakyClose }).trace = [2, 1, 0] ∧
    closeCalls (main { sampleEnv with close := flakyClose }).trace =
      closeCalls (main sampleEnv).trace ∧
    closeResults (main { sampleEnv with close := flakyClose }).trace =
      (closeCalls (main sampleEnv).trace).map (fun p => (p.1, flakyClose p.1 p.2.1 p.2.2)) ∧
    (main { sampleEnv with close := flakyClose }).outcome = Outcome.exited 0 :=
  close_failures_do_not_stop_teardown sampleEnv sampleConf sampleResp flakyClose
    sampleEnv_startupOk sampleEnv_requestsSucceed rfl

/-- C6: when the startup goes through, all N requests succeed and the signal
fires, the `Close` call of the closure deferred by iteration `i` is passed the
connection that the `Request` call of iteration `i` returned, for every
`i < N`. -/
theorem close_receives_response_of_same_request (env : Env) (rootConf : Config)
    (resp : Nat → Connection) (hstart : StartupOk env rootConf)
    (hreq : RequestsSucceed env rootConf resp rootConf.NetworkServices.length)
    (hsig : env.signal = true) :
    (closeCalls (main env).trace).map (fun p => (p.1, p.2.2)) =
      ((List.range rootConf.NetworkServices.length).map fun i => (i, resp i)).reverse ∧
    ∀ i, i < rootConf.NetworkServices.length →
      Event.requestReturn i (Except.ok (resp i)) ∈ (main env).trace := by
  constructor
  · rw [closeCalls_main_ok env rootConf resp hstart hreq hsig, withCloseCtx_connections]
  · intro i hi
    obtain ⟨hu, hp, hx, ⟨svid, hs⟩, hd⟩ := hstart
    rw [main_ok env rootConf resp svid hu hp hx hs hd hreq]
    simp only [hsig, if_true]
    have := requestReturn_mem_loopEvents rootConf resp rootConf.NetworkServices 0 i hi
    simp only [Nat.zero_add] at this
    simp [this]

theorem close_receives_response_of_same_request_witness :
    (closeCalls (main sampleEnv).trace).map (fun p => (p.1, p.2.2)) =
      [(2, sampleResp 2), (1, sampleResp 1), (0, sampleResp 0)] ∧
    ∀ i, i < 3 → Event.requestReturn i (Except.ok (sampleResp i)) ∈ (main sampleEnv).trace :=
  close_receives_response_of_same_request sampleEnv sampleConf sampleResp
    sampleEnv_startupOk sampleEnv_requestsSucceed rfl

/-- C7: when the startup goes through and all N requests succeed, `main` issues
exactly N `Request` calls, one per descriptor in configured order, and each call
is issued after the previous one has returned. -/
theorem requests_issued_in_configured_order (env : Env) (rootConf : Config)
    (resp : Nat → Connection) (hstart : StartupOk env rootConf)
    (hreq : RequestsSucceed env rootConf resp rootConf.NetworkServices.length) :
    requestIndices (main env).trace = List.range rootConf.NetworkServices.length ∧
    requestCalls (main env).trace =
      rootConf.NetworkServices.enum.map
        (fun p => (p.1, mkRequest rootConf.Name p.1 p.2)) ∧
    requestEvents (main env).trace =
      rootConf.NetworkServices.enum.flatMap fun p =>
        [Event.requestCall p.1 (requestCtx rootConf p.1) (mkRequest rootConf.Name p.1 p.2),
         Event.requestReturn p.1 (Except.ok (resp p.1))] := by
  obtain ⟨hu, hp, hx, ⟨svid, hs⟩, hd⟩ := hstart
  have hcalls : requestCalls (main env).trace =
      rootConf.NetworkServices.enum.map
        (fun p => (p.1, mkRequest rootConf.Name p.1 p.2)) := by
    rw [main_ok env rootConf resp svid hu hp hx hs hd hreq]
    have h1 : requestCalls (startupEvents rootConf svid) = [] := by
      simp [requestCalls, startupEvents]
    cases env.signal
    · simp only [Bool.false_eq_true, if_false]
      rw [requestCalls_append, requestCalls_loopEvents, h1]; rfl
    · simp only [if_true]
      rw [requestCalls_append, requestCalls_append, requestCalls_loopEvents, h1,
        ← List.singleton_append, requestCalls_append, requestCalls_deferredEvents]
      simp [requestCalls, List.enum]
  refine ⟨?_, hcalls, ?_⟩
  · rw [requestIndices, hcalls, List.map_map]
    have : (Prod.fst ∘ fun p : Nat × NSURL => (p.1, mkRequest rootConf.Name p.1 p.2))
        = Prod.fst := by funext p; rfl
    rw [this, List.enum_map_fst]
  · rw [main_ok env rootConf resp svid hu hp hx hs hd hreq]
    have h1 : requestEvents (startupEvents rootConf svid) = [] := by
      simp [requestEvents, startupEvents]
    cases env.signal
    · simp only [Bool.false_eq_true, if_false]
      rw [requestEvents_append, requestEvents_loopEvents, h1]; rfl
    · simp only [if_true]
      rw [requestEvents_append, requestEvents_append, requestEvents_loopEvents, h1,
        ← List.singleton_append, requestEvents_append, requestEvents_deferredEvents]
      simp [requestEvents, List.enum]

theorem requests_issued_in_configured_order_witness :
    requestIndices (main sampleEnv).trace = [0, 1, 2] ∧
    requestCalls (main sampleEnv).trace =
      sampleConf.NetworkServices.enum.map
        (fun p => (p.1, mkRequest sampleConf.Name p.1 p.2)) ∧
    requestEvents (main sampleEnv).trace =
      sampleConf.NetworkServices.enum.flatMap fun p =>
        [Event.requestCall p.1 (requestCtx sampleConf p.1) (mkRequest sampleConf.Name p.1 p.2),
         Event.requestReturn p.1 (Except.ok (sampleResp p.1))] :=
  requests_issued_in_configured_order sampleEnv sampleConf sampleResp
    sampleEnv_startupOk sampleEnv_requestsSucceed


/-- C8: when the startup goes through and all N requests succeed, no `Close`
call is made before the wait on the shutdown signal returns; if the signal
arrives, every connection is then closed and the process exits with status 0,
and if it never arrives no `Close` call is made at all. -/
theorem no_close_before_shutdown_signal (env : Env) (rootConf : Config)
    (resp : Nat → Connection) (hstart : StartupOk env rootConf)
    (hreq : RequestsSucceed env rootConf resp rootConf.NetworkServices.length) :
    closeCalls (beforeDone (main env).trace) = [] ∧
    (if env.signal = true then
      Event.ctxDone ∈ (main env).trace ∧
      closeIndices (main env).trace = (List.range rootConf.NetworkServices.length).reverse ∧
      (main env).outcome = Outcome.exited 0
    else
      closeCalls (main env).trace = [] ∧ (main env).outcome = Outcome.blocked) := by
  have hpre : Event.ctxDone ∉
      startupEvents rootConf (Classical.choose hstart.2.2.2.1) ++
        loopEvents rootConf resp 0 rootConf.NetworkServices := by
    simp [startupEvents, ctxDone_not_mem_loopEvents]
  have hmain := main_ok env rootConf resp (Classical.choose hstart.2.2.2.1) hstart.1
    hstart.2.1 hstart.2.2.1 (Classical.choose_spec hstart.2.2.2.1) hstart.2.2.2.2 hreq
  have hnil : closeCalls (startupEvents rootConf (Classical.choose hstart.2.2.2.1) ++
      loopEvents rootConf resp 0 rootConf.NetworkServices) = [] := by
    rw [closeCalls_append, closeCalls_startupEvents, closeCalls_loopEvents]; rfl
  cases hsig : env.signal with
  | false =>
    have ht : (main env).trace = startupEvents rootConf (Classical.choose hstart.2.2.2.1) ++
        loopEvents rootConf resp 0 rootConf.NetworkServices := by
      rw [hmain]; simp [hsig]
    have ho : (main env).outcome = Outcome.blocked := by
      rw [hmain]; simp [hsig]
    simp only [Bool.false_eq_true, if_false]
    rw [ht, beforeDone_of_not_mem _ hpre]
    exact ⟨hnil, hnil, ho⟩
  | true =>
    have ht : (main env).trace = (startupEvents rootConf (Classical.choose hstart.2.2.2.1) ++
        loopEvents rootConf resp 0 rootConf.NetworkServices) ++
        Event.ctxDone :: deferredEvents rootConf env (rootConf.NetworkServices.length + 2)
          (loopDeferred resp 0 rootConf.NetworkServices startupDeferred) := by
      rw [hmain]; simp [hsig]
    have ho : (main env).outcome = Outcome.exited 0 := by
      rw [hmain]; simp [hsig]
    simp only [if_true]
    refine ⟨?_, ?_, ?_, ho⟩
    · rw [ht, beforeDone_append_done _ _ hpre]; exact hnil
    · rw [ht]; simp
    · rw [closeIndices, closeCalls_main_ok env rootConf resp hstart hreq hsig, withCloseCtx_indices]
      simp [List.map_reverse, Function.comp_def]

theorem no_close_before_shutdown_signal_witness :
    closeCalls (beforeDone (main sampleEnv).trace) = [] ∧
    (if sampleEnv.signal = true then
      Event.ctxDone ∈ (main sampleEnv).trace ∧
      closeIndices (main sampleEnv).trace = [2, 1, 0] ∧
      (main sampleEnv).outcome = Outcome.exited 0
    else
      closeCalls (main sampleEnv).trace = [] ∧ (main sampleEnv).outcome = Outcome.blocked) :=
  no_close_before_shutdown_signal sampleEnv sampleConf sampleResp
    sampleEnv_startupOk sampleEnv_requestsSucceed

/-- C9 (as stated, refuted): no request built by `main` carries the preference
sequence [vfio, kernel]; a request carries exactly one mechanism. -/
theorem no_request_prefers_vfio_then_kernel :
    ¬ ∃ (name : String) (i : Nat) (u : NSURL),
      (mkRequest name i u).MechanismPreferences = [vfioMechanism, kernelMechanism] := by
  rintro ⟨name, i, u, h⟩
  simp [mkRequest] at h

/-- C9 (amended): in every run, the `Request` call of index `i` carries the
request built from the descriptor of index `i`: its service name, its labels,
the id for index `i`, and as mechanism preferences the one-element sequence
holding the single mechanism of the descriptor. -/
theorem request_built_from_descriptor (env : Env) (rootConf : Config)
    (hp : env.process = Except.ok rootConf) (i : Nat) (r : NetworkServiceRequest)
    (hmem : (i, r) ∈ requestCalls (main env).trace) :
    ∃ h : i < rootConf.NetworkServices.length,
      r.Connection.Id = requestId rootConf.Name i ∧
      r.Connection.NetworkService = (rootConf.NetworkServices.get ⟨i, h⟩).NetworkService ∧
      r.Connection.Labels = (rootConf.NetworkServices.get ⟨i, h⟩).Labels ∧
      r.MechanismPreferences = [(rootConf.NetworkServices.get ⟨i, h⟩).Mechanism] := by
  obtain ⟨h, hr⟩ := main_requestCalls env rootConf hp (i, r) hmem
  simp only at hr
  refine ⟨h, ?_⟩
  rw [hr]
  exact ⟨rfl, rfl, rfl, rfl⟩

theorem request_built_from_descriptor_witness :
    ∃ h : 1 < sampleConf.NetworkServices.length,
      (mkRequest "nsc" 1 ⟨"svc-b", [("app", "b")], vfioMechanism⟩).Connection.Id =
        requestId sampleConf.Name 1 ∧
      (mkRequest "nsc" 1 ⟨"svc-b", [("app", "b")], vfioMechanism⟩).Connection.NetworkService =
        (sampleConf.NetworkServices.get ⟨1, h⟩).NetworkService ∧
      (mkRequest "nsc" 1 ⟨"svc-b", [("app", "b")], vfioMechanism⟩).Connection.Labels =
        (sampleConf.NetworkServices.get ⟨1, h⟩).Labels ∧
      (mkRequest "nsc" 1 ⟨"svc-b", [("app", "b")], vfioMechanism⟩).MechanismPreferences =
        [(sampleConf.NetworkServices.get ⟨1, h⟩).Mechanism] :=
  request_built_from_descriptor sampleEnv sampleConf rfl 1
    (mkRequest "nsc" 1 ⟨"svc-b", [("app", "b")], vfioMechanism⟩) (by decide)

/-- C10: in every run, each `Close` call is given a context of its own, created
from the background context with the configured request timeout as deadline;
neither the signal context nor the top-level context of `main` cancels it, and
the contexts of two different `Close` calls do not cancel each other. -/
theorem close_context_is_fresh_background_timeout (env : Env) (rootConf : Config)
    (hp : env.process = Except.ok rootConf) :
    (∀ c ∈ closeContexts (main env).trace,
      c.parent? = some Context.background ∧
      c.timeout? = some rootConf.RequestTimeout ∧
      signalCtx.cancels c = false ∧ mainCtx.cancels c = false) ∧
    (closeContexts (main env).trace).Pairwise
      (fun c d => c ≠ d ∧ c.cancels d = false ∧ d.cancels c = false) := by
  obtain ⟨n, l, h⟩ := main_closeCalls env rootConf hp
  rw [closeContexts, h, withCloseCtx_contexts]
  constructor
  · intro c hc
    simp only [List.mem_map, List.mem_range] at hc
    obtain ⟨j, _, rfl⟩ := hc
    simp [Context.parent?, Context.timeout?, Context.cancels, Context.lineage, signalCtx,
      mainCtx]
  · rw [List.pairwise_map]
    refine List.Pairwise.imp ?_ (List.pairwise_lt_range l.length)
    intro a b hab
    have h1 : n + a ≠ n + b := by omega
    have h2 : n + b ≠ n + a := by omega
    simp [Context.cancels, Context.lineage, h1, h2]

theorem close_context_is_fresh_background_timeout_witness :
    (∀ c ∈ closeContexts (main sampleEnv).trace,
      c.parent? = some Context.background ∧
      c.timeout? = some sampleConf.RequestTimeout ∧
      signalCtx.cancels c = false ∧ mainCtx.cancels c = false) ∧
    (closeContexts (main sampleEnv).trace).Pairwise
      (fun c d => c ≠ d ∧ c.cancels d = false ∧ d.cancels c = false) :=
  close_context_is_fresh_background_timeout sampleEnv sampleConf rfl

end Nsc
